import Mathlib

/-!
Verification development for the `rice-opencode` docs plugin
(`src/packages/docs/src/plugin.ts` and `src/plugins/docs.ts`).

The registry, doc-id generation/validation, the tool control flows and
their error paths are embedded as pure Lean functions.  External effects
(file system, subprocesses, the preset manager and pandoc builder that
live outside the provided sources) are modelled as explicit parameters
or, where the module itself is absent, from the spec (marked
`Modelled from the spec:`).
-/

namespace RiceDocs

/-! ## Registry data model (plugin.ts lines 66-96) -/

/-- One entry of the draft registry (`DocRegistry.drafts` values). -/
structure DraftInfo where
  title : String
  preset : String
  created_at : String
  last_modified : String
  source_markdown : Option String
  status : String
  deriving Repr, DecidableEq

/-- The `drafts` object, modelled as an insertion-ordered association
list, as a JS object is for iteration/lookup purposes. -/
abbrev Drafts := List (String × DraftInfo)

/-- The registry record stored in `.opencode/docs-registry.json`. -/
structure DocRegistry where
  drafts : Drafts
  deriving Repr, DecidableEq

def emptyRegistry : DocRegistry := ⟨[]⟩

/-- On-disk state of the registry file: absent, present but not valid
JSON, or valid JSON parsing to a registry.  These are exactly the three
branches `readRegistry` distinguishes. -/
inductive RegistryFile where
  | absent
  | malformed
  | wellFormed (r : DocRegistry)
  deriving Repr, DecidableEq

/-- `readRegistry` (plugin.ts lines 77-87): missing file or a JSON parse
failure both yield the empty registry. -/
def readRegistry : RegistryFile → DocRegistry
  | .absent => emptyRegistry
  | .malformed => emptyRegistry
  | .wellFormed r => r

/-! ### JS object-key operations -/

/-- JS property read `obj[k]`. -/
def findKey {α : Type} : List (String × α) → String → Option α
  | [], _ => none
  | p :: t, k => if p.1 = k then some p.2 else findKey t k

/-- JS `obj[k] = v`: replaces the value in place when the key exists,
appends otherwise. -/
def setKey : Drafts → String → DraftInfo → Drafts
  | [], k, v => [(k, v)]
  | p :: t, k, v => if p.1 = k then (k, v) :: t else p :: setKey t k v

/-- JS `delete obj[k]` (a JS object holds each key at most once, so
removing every occurrence from the association list is equivalent). -/
def delKey (l : Drafts) (k : String) : Drafts :=
  l.filter (fun p => p.1 ≠ k)

/-! ## Doc-id generation and validation (plugin.ts lines 13-38, 99-118) -/

def isLowerAlpha (c : Char) : Bool := 'a' ≤ c && c ≤ 'z'

def isDigitCh (c : Char) : Bool := '0' ≤ c && c ≤ '9'

/-- Matches `\d+$`. -/
def tailDigits (cs : List Char) : Bool :=
  !(cs.takeWhile isDigitCh).isEmpty && (cs.dropWhile isDigitCh).isEmpty

/-- Matches `\d+(-\d+)?$`. -/
def numPart (cs : List Char) : Bool :=
  match cs.dropWhile isDigitCh with
  | [] => !(cs.takeWhile isDigitCh).isEmpty
  | c :: rest => c == '-' && (!(cs.takeWhile isDigitCh).isEmpty && tailDigits rest)

/-- Matches `[a-z]+-` followed by whatever `next` accepts.  Since `-` is
outside `[a-z]` and `\d`, the regex's greedy matching is deterministic
and equals this maximal-munch parse. -/
def alphaThen (next : List Char → Bool) (cs : List Char) : Bool :=
  match cs.dropWhile isLowerAlpha with
  | [] => false
  | c :: rest => c == '-' && (!(cs.takeWhile isLowerAlpha).isEmpty && next rest)

/-- `isValidDocId` (plugin.ts lines 116-118): the regex
`^[a-z]+-[a-z]+-\d+(-\d+)?$`. -/
def isValidDocId (s : String) : Bool :=
  alphaThen (alphaThen numPart) s.data

/-- Decimal rendering, fuel-driven so it reduces by `rfl`/`decide`. -/
def natDigitsAux : Nat → Nat → List Char
  | 0, _ => []
  | fuel + 1, n =>
    if n < 10 then [Nat.digitChar n]
    else natDigitsAux fuel (n / 10) ++ [Nat.digitChar (n % 10)]

/-- Decimal rendering of a natural number, as JS string interpolation of
a nonnegative integer produces (`n + 1` units of fuel always cover the
number of digits of `n`). -/
def natDigits (n : Nat) : List Char := natDigitsAux (n + 1) n

/-- The 60 adjectives (plugin.ts lines 14-21). -/
def ADJECTIVES : List String := [
  "amber", "ancient", "autumn", "bold", "brave", "bright", "calm", "clever", "cool", "crimson",
  "curious", "daring", "deep", "eager", "elegant", "fierce", "gentle", "golden", "graceful", "happy",
  "hidden", "jade", "joyful", "kind", "lively", "lucky", "mighty", "misty", "modern", "mystic",
  "noble", "peaceful", "purple", "quiet", "rapid", "royal", "rustic", "serene", "silent", "silver",
  "smooth", "solid", "spring", "steady", "summer", "swift", "tender", "vivid", "warm", "wild",
  "wise", "young", "zealous", "azure", "blazing", "breezy", "cosmic", "crystal", "dawn", "dusk"]

/-- The 70 nouns (plugin.ts lines 23-31). -/
def NOUNS : List String := [
  "apple", "arrow", "autumn", "beach", "bird", "bloom", "breeze", "brook", "canyon", "cloud",
  "coral", "crane", "crystal", "dolphin", "dream", "eagle", "field", "flame", "flower", "forest",
  "fountain", "garden", "gate", "glade", "grove", "harbor", "haven", "hill", "horizon", "island",
  "journey", "lake", "leaf", "meadow", "mirror", "mist", "moon", "mountain", "night", "ocean",
  "orchard", "peak", "pine", "pond", "rain", "ravine", "river", "road", "rock", "rose",
  "sands", "sea", "shade", "sky", "spring", "star", "stone", "stream", "sun", "sunset",
  "surf", "swan", "tide", "tower", "tree", "valley", "wave", "willow", "wind", "wood"]

/-- `generateDocId` (plugin.ts lines 33-38).  `ai`, `ni` model the two
`Math.floor(Math.random()*len)` draws (reduced mod the list length,
which the original draw already satisfies); `r` models the draw for the
3-digit number `Math.floor(Math.random()*900)+100`. -/
def generateDocId (ai ni r : Nat) : String :=
  let adj := ADJECTIVES.getD (ai % ADJECTIVES.length) ""
  let noun := NOUNS.getD (ni % NOUNS.length) ""
  let num := r % 900 + 100
  adj ++ "-" ++ noun ++ "-" ++ String.mk (natDigits num)

/-- `generateUniqueDocId` (plugin.ts lines 99-113).  `rand i` is the
triple of random draws of the `i`-th `generateDocId()` call; `ts` is
`Date.now()`.  The do/while loop returns the first fresh id among calls
0..98 (a fresh id found on the 100th call is discarded because
`attempts >= 100` already triggers the fallback); the fallback performs
one further `generateDocId()` call (index 100) and appends the
timestamp. -/
def generateUniqueDocId (rand : Nat → Nat × Nat × Nat) (ts : Nat)
    (drafts : Drafts) : String :=
  let ids := fun i => generateDocId (rand i).1 (rand i).2.1 (rand i).2.2
  match (List.range 99).find? (fun i => (findKey drafts (ids i)).isNone) with
  | some i => ids i
  | none => ids 100 ++ "-" ++ String.mk (natDigits ts)

/-! ## String helpers modelling JS primitives -/

/-- JS `s.startsWith(p)`. -/
def jsStartsWith (s p : String) : Bool := p.data.isPrefixOf s.data

/-- JS `s.endsWith(p)`. -/
def jsEndsWith (s p : String) : Bool := p.data.isSuffixOf s.data

/-- JS truthiness of an optional string: `undefined` and `""` are falsy. -/
def jsTruthyS : Option String → Bool
  | none => false
  | some s => !s.isEmpty

/-- `escapeYaml` (plugin.ts lines 9-11): escape double quotes, then turn
newlines into spaces (the two substitutions do not interact, so a single
character-wise pass is equivalent). -/
def escapeYaml (s : String) : String :=
  String.mk ((s.data.map fun c =>
    if c = '"' then ['\\', '"'] else if c = '\n' then [' '] else [c]).flatten)

/-! ## docs_draft (plugin.ts lines 126-201) -/

structure DraftArgs where
  title : String
  preset : String
  initial_content : Option String
  source_markdown : Option String

/-- The frontmatter block of plugin.ts lines 151-157:
`["---", title line, date line, "---", ""].join("\n")`. -/
def frontmatter (title today : String) : String :=
  "---\n" ++ "title: \"" ++ escapeYaml title ++ "\"\n" ++
    "date: \"" ++ today ++ "\"\n" ++ "---\n"

/-- Initial content selection (plugin.ts lines 142-147): `initial_content`
if truthy, else the source file when given and existing, else empty.
`fs p` models `existsSync(p)` (isSome) plus `readFileSync(p)`. -/
def draftInitialContent (args : DraftArgs) (fs : String → Option String) :
    String :=
  if jsTruthyS args.initial_content then args.initial_content.getD ""
  else if jsTruthyS args.source_markdown &&
      (fs (args.source_markdown.getD "")).isSome then
    (fs (args.source_markdown.getD "")).getD ""
  else ""

/-- The content written to `draft.md` (plugin.ts lines 149-163): prepend
the frontmatter when the content does not already start with `---`. -/
def draftStored (args : DraftArgs) (fs : String → Option String)
    (today : String) : String :=
  let content := draftInitialContent args fs
  if jsStartsWith content "---" then content
  else frontmatter args.title today ++ content

/-- `docs_draft` registry effect and result (plugin.ts lines 134-200):
returns the generated id, the registry written to disk, and the stored
draft content.  `nowIso` models `new Date().toISOString()`, `today` its
date part. -/
def docsDraft (args : DraftArgs) (fs : String → Option String)
    (rand : Nat → Nat × Nat × Nat) (ts : Nat) (nowIso today : String)
    (regFile : RegistryFile) : String × DocRegistry × String :=
  let registry := readRegistry regFile
  let docId := generateUniqueDocId rand ts registry.drafts
  let content := draftStored args fs today
  let info : DraftInfo :=
    ⟨args.title, args.preset, nowIso, nowIso, args.source_markdown, "draft"⟩
  (docId, ⟨setKey registry.drafts docId info⟩, content)

/-! ## docs_list_drafts (plugin.ts lines 203-229) -/

def docsListDrafts (regFile : RegistryFile) (basePath : String)
    (fs : String → Bool) : String :=
  let registry := readRegistry regFile
  if registry.drafts.isEmpty then
    "No active drafts. Create one with docs_draft."
  else
    String.intercalate "\n" (["Active document drafts:", ""] ++
      (registry.drafts.map (fun p =>
        let draftPath := basePath ++ "/" ++ p.1 ++ "/draft.md"
        let status := if fs draftPath then p.2.status else "missing"
        [p.1, "  Title: " ++ p.2.title, "  Preset: " ++ p.2.preset,
          "  Status: " ++ status,
          "  Modified: " ++ (p.2.last_modified.splitOn "T").headD "",
          "  Path: " ++ draftPath, ""])).flatten)

/-! ## Resolved presets and the compile/create tools -/

/-- The fields of a resolved preset that the tools in plugin.ts read:
`preset.name`, `preset.template?.path`, `preset.resolved_template_path`. -/
structure ResolvedPreset where
  name : String := ""
  templatePath : Option String := none
  resolved_template_path : Option String := none
  deriving Repr, DecidableEq

/-- Result of running the external conversion process. -/
structure ExecResult where
  success : Bool
  output : String
  error : String
  deriving Repr, DecidableEq

/-- Split into lines at newline characters (`"".split` semantics: the
result is never empty). -/
def splitLinesL : List Char → List (List Char)
  | [] => [[]]
  | c :: rest =>
    match splitLinesL rest, decide (c = '\n') with
    | r, true => [] :: r
    | [], false => [[c]]
    | h :: t, false => (c :: h) :: t

def joinLines : List (List Char) → List Char
  | [] => []
  | [l] => l
  | l :: ls => l ++ '\n' :: joinLines ls

/-- Last `n` lines of a string, newline-joined. -/
def lastLines (n : Nat) (s : String) : String :=
  String.mk (joinLines (((splitLinesL s.data).reverse.take n).reverse))

/-- Modelled from the spec: the pandoc builder module
(`./builder` / `pandoc-builder`, absent from the sources) reports
execution failure (non-zero exit) with captured standard-error, or the
last `n` lines of standard-out when standard-error is empty, and reports
success with captured standard-output. -/
def builderExecute (exitCode : Nat) (stdout stderr : String) (n : Nat) :
    ExecResult :=
  if exitCode ≠ 0 then
    ⟨false, stdout, if stderr.isEmpty then lastLines n stdout else stderr⟩
  else ⟨true, stdout, ""⟩

/-- Observable steps of a tool execution. -/
inductive Ev where
  | readReg
  | writeReg (r : DocRegistry)
  | loadPresetEv
  | execEv
  deriving Repr, DecidableEq

/-- Environment of one `docs_compile` run: the registry file, whether
`draft.md` exists, the computed paths, the preset manager's answer
(`.error` models a thrown exception), the parse outcome of the optional
`authors` JSON argument, and the conversion result. -/
structure CompileEnv where
  regFile : RegistryFile
  draftFileExists : Bool
  draftPath : String
  outputPath : String
  loadPreset : String → Except String ResolvedPreset
  authorsArg : Option (Except String Unit)
  execResult : ExecResult

/-- `docs_compile` (plugin.ts lines 231-362): result (`.error` = thrown
exception, `.ok` = returned message), the registry written to disk (if
any), and the event trace. -/
def docsCompile (docId : String) (now : String) (env : CompileEnv) :
    Except String String × Option DocRegistry × List Ev :=
  if !isValidDocId docId then
    (.ok ("Invalid document ID format: " ++ docId), none, [])
  else
    let registry := readRegistry env.regFile
    match findKey registry.drafts docId with
    | none =>
      (.ok ("Draft not found: " ++ docId ++
        ". Use docs_list_drafts to see available drafts."), none, [.readReg])
    | some info =>
      if !env.draftFileExists then
        (.ok ("Draft file missing: " ++ env.draftPath), none, [.readReg])
      else
        let info' := { info with last_modified := now, status := "compiled" }
        let reg' : DocRegistry := ⟨setKey registry.drafts docId info'⟩
        match env.loadPreset info.preset with
        | .error e => (.error e, some reg', [.readReg, .writeReg reg', .loadPresetEv])
        | .ok preset =>
          if jsTruthyS preset.templatePath &&
              !(jsTruthyS preset.resolved_template_path) then
            (.error ("Template '" ++ preset.templatePath.getD "" ++
              "' not found. Use docs_templates_install."), some reg',
              [.readReg, .writeReg reg', .loadPresetEv])
          else
            match env.authorsArg with
            | some (.error e) =>
              (.error ("Invalid authors JSON: " ++ e), some reg',
                [.readReg, .writeReg reg', .loadPresetEv])
            | _ =>
              if env.execResult.success then
                (.ok ("Compiled: " ++ env.outputPath ++ "\nDocument: " ++
                  info.title ++ "\nPreset: " ++ info.preset), some reg',
                  [.readReg, .writeReg reg', .loadPresetEv, .execEv])
              else
                (.error ("Compilation failed:\n" ++ env.execResult.error),
                  some reg',
                  [.readReg, .writeReg reg', .loadPresetEv, .execEv])

/-- `docs_delete_draft` (plugin.ts lines 364-393). -/
def docsDeleteDraft (docId : String) (regFile : RegistryFile) :
    Except String String × Option DocRegistry × List Ev :=
  if !isValidDocId docId then
    (.ok ("Invalid document ID format: " ++ docId), none, [])
  else
    let registry := readRegistry regFile
    match findKey registry.drafts docId with
    | none => (.ok ("Draft not found: " ++ docId), none, [.readReg])
    | some _ =>
      (.ok ("Deleted draft: " ++ docId),
        some ⟨delKey registry.drafts docId⟩,
        [.readReg, .writeReg ⟨delKey registry.drafts docId⟩])

/-- Environment of one `docs_create` run. -/
structure CreateEnv where
  loadPreset : String → Except String ResolvedPreset
  execResult : ExecResult

/-- `docs_create` (plugin.ts lines 572-608), reduced to the steps the
claims concern: preset load, template check, conversion. -/
def docsCreate (presetName : String) (env : CreateEnv)
    (outputPath : String) : Except String String × List Ev :=
  match env.loadPreset presetName with
  | .error e => (.error e, [.loadPresetEv])
  | .ok preset =>
    if jsTruthyS preset.templatePath &&
        !(jsTruthyS preset.resolved_template_path) then
      (.error ("Template '" ++ preset.templatePath.getD "" ++
        "' not found. Use docs_templates_install."), [.loadPresetEv])
    else
      if env.execResult.success then
        (.ok ("Created: " ++ outputPath ++ "\nPreset: " ++ preset.name),
          [.loadPresetEv, .execEv])
      else
        (.error ("Failed:\n" ++ env.execResult.error),
          [.loadPresetEv, .execEv])

/-- `docs_compile_latex` (plugin.ts lines 414-432): throws captured
standard-error on non-zero exit; standard-out is captured but never used
in the message. -/
def docsCompileLatex (filePath : String) (exitCode : Nat)
    (_stdoutCaptured stderrCaptured : String) : Except String String :=
  if !jsEndsWith filePath ".tex" then .error "Input file must be a .tex file"
  else if exitCode ≠ 0 then
    .error ("Compilation failed:\n" ++ stderrCaptured)
  else .ok ("Compiled " ++ filePath ++ " to PDF.")

/-! ## docs_templates_install (plugin.ts lines 493-570) -/

inductive InstallSource where
  | eisvogel | ieee | cslIeee | cslApa | cslAcm
  deriving Repr, DecidableEq

inductive InstEv where
  | proc | fetchEv | fileWrite | cacheClear
  deriving Repr, DecidableEq

structure InstallEnv where
  dlOk : Bool
  dlStderr : String
  extractOk : Bool
  extractStderr : String
  fetchOk : Bool
  fetchStatus : Nat
  clsOk : Bool

def natToStr (n : Nat) : String := String.mk (natDigits n)

def cslName : InstallSource → String
  | .cslIeee => "csl-ieee"
  | .cslApa => "csl-apa"
  | .cslAcm => "csl-acm"
  | _ => ""

def cslDest (userDir : String) : InstallSource → String
  | .cslIeee => userDir ++ "/csl/ieee.csl"
  | .cslApa => userDir ++ "/csl/apa.csl"
  | .cslAcm => userDir ++ "/csl/acm-sig-proceedings.csl"
  | _ => ""

/-- `docs_templates_install` (plugin.ts lines 498-569): each of the five
sources, with its download/extract/fetch failure points; every success
path calls `presetManager.clearCache()` and then returns. -/
def docsTemplatesInstall (src : InstallSource) (env : InstallEnv)
    (userDir : String) : Except String String × List InstEv :=
  match src with
  | .eisvogel =>
    if !env.dlOk then
      (.error ("Download failed: " ++ env.dlStderr), [.proc, .proc, .proc])
    else if !env.extractOk then
      (.error ("Extraction failed: " ++ env.extractStderr),
        [.proc, .proc, .proc, .proc])
    else
      (.ok ("Installed eisvogel to " ++ userDir ++ "/templates/eisvogel.latex"),
        [.proc, .proc, .proc, .proc, .proc, .proc, .cacheClear])
  | .ieee =>
    if !env.fetchOk then
      (.error ("Template download failed: HTTP " ++ natToStr env.fetchStatus),
        [.proc, .fetchEv])
    else if !env.clsOk then
      (.error "Failed to download IEEEtran.cls from CTAN",
        [.proc, .fetchEv, .fileWrite, .proc])
    else
      (.ok ("Installed IEEE template + IEEEtran.cls to " ++ userDir ++
        "/templates/ieee"),
        [.proc, .fetchEv, .fileWrite, .proc, .cacheClear])
  | s =>
    if !env.fetchOk then
      (.error ("HTTP " ++ natToStr env.fetchStatus), [.proc, .fetchEv])
    else
      (.ok ("Installed " ++ cslName s ++ " to " ++ cslDest userDir s),
        [.proc, .fetchEv, .fileWrite, .cacheClear])

/-! ## Preset resolution and inheritance

Modelled from the spec: the preset manager module (`./presets` /
`preset-manager`) is absent from the sources; §4.1 of the spec gives its
contract, embedded below. -/

/-- Modelled from the spec: a preset definition — name, optional parent
(the `extends` field), template reference, PDF engine, CSL, nested maps
(pandoc variables, logo sets, style flags) and list-valued extra
arguments. -/
structure PresetConfig where
  name : String := ""
  parent : Option String := none
  templatePath : Option String := none
  pdf_engine : Option String := none
  csl : Option String := none
  pandocVars : List (String × String) := []
  logos : List (String × String) := []
  styleFlags : List (String × Bool) := []
  extra_args : List String := []
  deriving Repr, DecidableEq

inductive PresetSource where
  | builtin | user | project
  deriving Repr, DecidableEq

/-- The three preset scopes. -/
structure PresetScopes where
  project : List (String × PresetConfig)
  user : List (String × PresetConfig)
  builtin : List (String × PresetConfig)

/-- Modelled from the spec: locate a preset definition by scope
precedence — project overrides user overrides built-in. -/
def lookupScoped (sc : PresetScopes) (name : String) :
    Option (PresetConfig × PresetSource) :=
  match findKey sc.project name with
  | some c => some (c, .project)
  | none =>
    match findKey sc.user name with
    | some c => some (c, .user)
    | none =>
      match findKey sc.builtin name with
      | some c => some (c, .builtin)
      | none => none

/-- Modelled from the spec: key-by-key merge of a nested map, child
entries overriding parent entries. -/
def mergeMap {α : Type} (parent child : List (String × α)) :
    List (String × α) :=
  parent.filter (fun p => (findKey child p.1).isNone) ++ child

/-- Modelled from the spec: merge the parent preset into the child —
child fields take precedence, nested maps (pandoc variables, logo sets,
style flags) merge key-by-key, extra arguments concatenate
parent-then-child. -/
def mergePresets (parent child : PresetConfig) : PresetConfig where
  name := child.name
  parent := none
  templatePath := child.templatePath.orElse fun _ => parent.templatePath
  pdf_engine := child.pdf_engine.orElse fun _ => parent.pdf_engine
  csl := child.csl.orElse fun _ => parent.csl
  pandocVars := mergeMap parent.pandocVars child.pandocVars
  logos := mergeMap parent.logos child.logos
  styleFlags := mergeMap parent.styleFlags child.styleFlags
  extra_args := parent.extra_args ++ child.extra_args

/-- Modelled from the spec: `loadPreset`'s core — locate the definition
by scope precedence, and when it declares a parent, resolve the parent
recursively and merge it into the child.  `fuel` bounds the inheritance
depth to make the recursion well-founded. -/
def resolvePresetCfg (sc : PresetScopes) : Nat → String → Except String PresetConfig
  | 0, name => .error ("Preset inheritance too deep: " ++ name)
  | fuel + 1, name =>
    match lookupScoped sc name with
    | none => .error ("Preset not found: " ++ name)
    | some (cfg, _) =>
      match cfg.parent with
      | none => .ok cfg
      | some p => (resolvePresetCfg sc fuel p).map fun par => mergePresets par cfg

/-! ## Concrete sample environments (used by witnesses) -/

def sampleExecOk : ExecResult := ⟨true, "pandoc output", ""⟩

def sampleExecFail : ExecResult := ⟨false, "out", "err"⟩

def samplePreset : ResolvedPreset :=
  ⟨"school-report", some "sit-uofg/template.latex",
    some "/u/templates/sit-uofg/template.latex"⟩

def sampleCompileEnv : CompileEnv where
  regFile := .wellFormed ⟨[("amber-apple-100",
    ⟨"T", "school-report", "c", "m", none, "draft"⟩)]⟩
  draftFileExists := true
  draftPath := "/w/.opencode/docs/amber-apple-100/draft.md"
  outputPath := "/w/.opencode/docs/amber-apple-100/amber-apple-100.pdf"
  loadPreset := fun n =>
    if n = "school-report" then .ok samplePreset
    else .error ("Preset not found: " ++ n)
  authorsArg := none
  execResult := sampleExecOk

def missingTplPreset : ResolvedPreset :=
  ⟨"ieee-conference", some "ieee/template.latex", none⟩

def sampleCompileEnvMissingTpl : CompileEnv :=
  { sampleCompileEnv with loadPreset := fun _ => .ok missingTplPreset }

def sampleCompileEnvFail : CompileEnv :=
  { sampleCompileEnv with execResult := sampleExecFail }

def sampleCreateEnvMissingTpl : CreateEnv where
  loadPreset := fun _ => .ok missingTplPreset
  execResult := sampleExecOk

def sampleCreateEnv : CreateEnv where
  loadPreset := fun n =>
    if n = "school-report" then .ok samplePreset
    else .error ("Preset not found: " ++ n)
  execResult := sampleExecOk

def sampleInstallEnv : InstallEnv :=
  ⟨true, "", true, "", true, 200, true⟩

/-- A registry in which the constant random stream's id collides on all
99 attempts and the timestamp fallback id (`Date.now() = 5`) collides
too. -/
def collidingRegistry : Drafts :=
  [("amber-apple-100", ⟨"A", "p", "c1", "m1", none, "draft"⟩),
   ("amber-apple-100-5", ⟨"B", "p", "c2", "m2", none, "compiled"⟩)]

def sampleParent : PresetConfig where
  name := "base"
  pandocVars := [("fontsize", "11pt"), ("margin", "2cm")]
  logos := [("sit", "a.png")]
  styleFlags := [("toc", true), ("titlepage", false)]
  extra_args := ["--listings"]

def sampleChild : PresetConfig where
  name := "child"
  parent := some "base"
  templatePath := some "eisvogel.latex"
  pandocVars := [("margin", "3cm")]
  styleFlags := [("titlepage", true)]
  extra_args := ["--number-sections"]

def sampleScopes : PresetScopes where
  project := [("child", sampleChild)]
  user := []
  builtin := [("base", sampleParent)]

/-- The registry `docs_compile` writes to disk right after its guards:
the named entry with `last_modified` set to now and `status` set to
`"compiled"`. -/
def compiledRegistry (env : CompileEnv) (docId now : String)
    (info : DraftInfo) : DocRegistry :=
  ⟨setKey (readRegistry env.regFile).drafts docId
    { info with last_modified := now, status := "compiled" }⟩

theorem findKey_setKey_self (l : Drafts) (k : String) (v : DraftInfo) :
    findKey (setKey l k v) k = some v := by
  induction l with
  | nil => simp [setKey, findKey]
  | cons p t ih =>
    by_cases h : p.1 = k
    · simp [setKey, findKey, h]
    · simp [setKey, findKey, h, ih]

theorem findKey_setKey_ne (l : Drafts) (k k' : String) (v : DraftInfo)
    (h : k' ≠ k) : findKey (setKey l k v) k' = findKey l k' := by
  induction l with
  | nil => simp [setKey, findKey, Ne.symm h]
  | cons p t ih =>
    by_cases hp : p.1 = k
    · simp only [setKey, hp, if_true]
      rw [findKey, findKey, hp]
      have : ¬ (k = k') := fun hh => h hh.symm
      simp [this, ih]
    · simp only [setKey, hp, if_false]
      rw [findKey, findKey]
      by_cases hk' : p.1 = k'
      · simp [hk']
      · simp [hk', ih]

theorem delKey_cons (p : String × DraftInfo) (t : Drafts) (k : String) :
    delKey (p :: t) k = if p.1 = k then delKey t k else p :: delKey t k := by
  by_cases hp : p.1 = k <;> simp [delKey, List.filter_cons, hp]

theorem findKey_delKey_self (l : Drafts) (k : String) :
    findKey (delKey l k) k = none := by
  induction l with
  | nil => rfl
  | cons p t ih =>
    rw [delKey_cons]
    by_cases hp : p.1 = k
    · rw [if_pos hp]; exact ih
    · rw [if_neg hp, findKey, if_neg hp]; exact ih

theorem findKey_delKey_ne (l : Drafts) (k k' : String) (h : k' ≠ k) :
    findKey (delKey l k) k' = findKey l k' := by
  induction l with
  | nil => rfl
  | cons p t ih =>
    rw [delKey_cons]
    by_cases hp : p.1 = k
    · rw [if_pos hp, findKey]
      have hne : ¬ (p.1 = k') := by rw [hp]; exact Ne.symm h
      rw [if_neg hne]
      exact ih
    · rw [if_neg hp, findKey, findKey]
      by_cases hk' : p.1 = k'
      · rw [if_pos hk', if_pos hk']
      · rw [if_neg hk', if_neg hk']; exact ih

/-! ## Doc-id validity lemmas -/

theorem takeWhile_app_cons (p : Char → Bool) (xs : List Char) (y : Char)
    (ys : List Char) (hxs : ∀ x ∈ xs, p x = true) (hy : p y = false) :
    (xs ++ y :: ys).takeWhile p = xs := by
  induction xs with
  | nil => simp [List.takeWhile_cons, hy]
  | cons a t ih =>
    have ha := hxs a (List.mem_cons_self a t)
    simp [List.takeWhile_cons, ha,
      ih (fun x hx => hxs x (List.mem_cons_of_mem a hx))]

theorem dropWhile_app_cons (p : Char → Bool) (xs : List Char) (y : Char)
    (ys : List Char) (hxs : ∀ x ∈ xs, p x = true) (hy : p y = false) :
    (xs ++ y :: ys).dropWhile p = y :: ys := by
  induction xs with
  | nil => simp [List.dropWhile_cons, hy]
  | cons a t ih =>
    have ha := hxs a (List.mem_cons_self a t)
    simp [List.dropWhile_cons, ha,
      ih (fun x hx => hxs x (List.mem_cons_of_mem a hx))]

theorem takeWhile_all (p : Char → Bool) (xs : List Char)
    (h : ∀ x ∈ xs, p x = true) : xs.takeWhile p = xs := by
  induction xs with
  | nil => rfl
  | cons a t ih =>
    simp [List.takeWhile_cons, h a (List.mem_cons_self a t),
      ih (fun x hx => h x (List.mem_cons_of_mem a hx))]

theorem dropWhile_all (p : Char → Bool) (xs : List Char)
    (h : ∀ x ∈ xs, p x = true) : xs.dropWhile p = [] := by
  induction xs with
  | nil => rfl
  | cons a t ih =>
    simp [List.dropWhile_cons, h a (List.mem_cons_self a t),
      ih (fun x hx => h x (List.mem_cons_of_mem a hx))]

theorem numPart_digits (d : List Char) (hne : d ≠ [])
    (hd : ∀ x ∈ d, isDigitCh x = true) : numPart d = true := by
  unfold numPart
  rw [dropWhile_all _ _ hd, takeWhile_all _ _ hd]
  simpa using hne

theorem numPart_digits_dash (d e : List Char) (hdne : d ≠ [])
    (hd : ∀ x ∈ d, isDigitCh x = true) (hene : e ≠ [])
    (he : ∀ x ∈ e, isDigitCh x = true) : numPart (d ++ '-' :: e) = true := by
  unfold numPart
  rw [dropWhile_app_cons _ _ _ _ hd (by decide),
    takeWhile_app_cons _ _ _ _ hd (by decide)]
  simp only [tailDigits, takeWhile_all _ _ he, dropWhile_all _ _ he]
  simp [hdne, hene]

theorem alphaThen_app (next : List Char → Bool) (a rest : List Char)
    (hane : a ≠ []) (ha : ∀ x ∈ a, isLowerAlpha x = true)
    (hnext : next rest = true) : alphaThen next (a ++ '-' :: rest) = true := by
  unfold alphaThen
  rw [dropWhile_app_cons _ _ _ _ ha (by decide),
    takeWhile_app_cons _ _ _ _ ha (by decide)]
  simp [hane, hnext]

theorem wordlist_ok (l : List String)
    (h : (l.all fun s => !s.data.isEmpty && s.data.all isLowerAlpha) = true) :
    ∀ s ∈ l, s.data ≠ [] ∧ ∀ c ∈ s.data, isLowerAlpha c = true := by
  intro s hs
  have hl := List.all_eq_true.mp h s hs
  simp only [Bool.and_eq_true] at hl
  refine ⟨?_, fun c hc => List.all_eq_true.mp hl.2 c hc⟩
  intro hnil
  rw [hnil] at hl
  simp at hl

theorem getD_mem_str (l : List String) (n : Nat) (d : String)
    (h : n < l.length) : l.getD n d ∈ l := by
  induction l generalizing n with
  | nil => simp at h
  | cons a t ih =>
    cases n with
    | zero => simp [List.getD]
    | succ m =>
      have hm : m < t.length := by simpa using h
      have := ih m hm
      simp only [List.getD] at this ⊢
      simp only [List.get?_cons_succ]
      exact List.mem_cons_of_mem a this

theorem isDigitCh_digitChar {d : Nat} (h : d < 10) :
    isDigitCh (Nat.digitChar d) = true := by
  interval_cases d <;> decide

theorem natDigitsAux_digits (fuel : Nat) :
    ∀ (n : Nat), ∀ c ∈ natDigitsAux fuel n, isDigitCh c = true := by
  induction fuel with
  | zero => intro n c hc; simp [natDigitsAux] at hc
  | succ f ih =>
    intro n c hc
    rw [natDigitsAux] at hc
    by_cases h : n < 10
    · rw [if_pos h] at hc
      simp only [List.mem_singleton] at hc
      subst hc
      exact isDigitCh_digitChar h
    · rw [if_neg h] at hc
      rcases List.mem_append.mp hc with hc | hc
      · exact ih _ c hc
      · simp only [List.mem_singleton] at hc
        subst hc
        exact isDigitCh_digitChar (Nat.mod_lt _ (by omega))

theorem natDigits_digits (n : Nat) :
    ∀ c ∈ natDigits n, isDigitCh c = true :=
  natDigitsAux_digits (n + 1) n

theorem natDigits_ne_nil (n : Nat) : natDigits n ≠ [] := by
  unfold natDigits natDigitsAux
  by_cases h : n < 10
  · simp [h]
  · rw [if_neg h]
    intro hh
    rcases List.append_eq_nil.mp hh with ⟨-, h2⟩
    simp at h2

theorem ADJECTIVES_ok :
    ∀ s ∈ ADJECTIVES, s.data ≠ [] ∧ ∀ c ∈ s.data, isLowerAlpha c = true :=
  wordlist_ok ADJECTIVES (by decide)

theorem NOUNS_ok :
    ∀ s ∈ NOUNS, s.data ≠ [] ∧ ∀ c ∈ s.data, isLowerAlpha c = true :=
  wordlist_ok NOUNS (by decide)

/-- The decomposition of a generated id into its three runs. -/
theorem generateDocId_shape (ai ni r : Nat) :
    ∃ a b d : List Char,
      (generateDocId ai ni r).data = a ++ '-' :: (b ++ '-' :: d) ∧
      a ≠ [] ∧ (∀ c ∈ a, isLowerAlpha c = true) ∧
      b ≠ [] ∧ (∀ c ∈ b, isLowerAlpha c = true) ∧
      d ≠ [] ∧ (∀ c ∈ d, isDigitCh c = true) := by
  have hadj := ADJECTIVES_ok _
    (getD_mem_str ADJECTIVES (ai % ADJECTIVES.length) ""
      (Nat.mod_lt _ (by decide)))
  have hnoun := NOUNS_ok _
    (getD_mem_str NOUNS (ni % NOUNS.length) ""
      (Nat.mod_lt _ (by decide)))
  refine ⟨(ADJECTIVES.getD (ai % ADJECTIVES.length) "").data,
    (NOUNS.getD (ni % NOUNS.length) "").data,
    natDigits (r % 900 + 100), ?_, hadj.1, hadj.2, hnoun.1, hnoun.2,
    natDigits_ne_nil _, natDigits_digits _⟩
  show (ADJECTIVES.getD (ai % ADJECTIVES.length) "" ++ "-" ++
      NOUNS.getD (ni % NOUNS.length) "" ++ "-" ++
      String.mk (natDigits (r % 900 + 100))).data = _
  simp [String.data_append]

theorem generateDocId_valid (ai ni r : Nat) :
    isValidDocId (generateDocId ai ni r) = true := by
  obtain ⟨a, b, d, hdata, hane, ha, hbne, hb, hdne, hd⟩ :=
    generateDocId_shape ai ni r
  unfold isValidDocId
  rw [hdata]
  exact alphaThen_app _ _ _ hane ha
    (alphaThen_app _ _ _ hbne hb (numPart_digits d hdne hd))

theorem generateDocId_fallback_valid (ai ni r ts : Nat) :
    isValidDocId (generateDocId ai ni r ++ "-" ++
      String.mk (natDigits ts)) = true := by
  obtain ⟨a, b, d, hdata, hane, ha, hbne, hb, hdne, hd⟩ :=
    generateDocId_shape ai ni r
  unfold isValidDocId
  have : (generateDocId ai ni r ++ "-" ++ String.mk (natDigits ts)).data =
      a ++ '-' :: (b ++ '-' :: (d ++ '-' :: natDigits ts)) := by
    simp [String.data_append, hdata]
  rw [this]
  exact alphaThen_app _ _ _ hane ha
    (alphaThen_app _ _ _ hbne hb
      (numPart_digits_dash d (natDigits ts) hdne hd
        (natDigits_ne_nil ts) (natDigits_digits ts)))

theorem generateUniqueDocId_valid (rand : Nat → Nat × Nat × Nat) (ts : Nat)
    (drafts : Drafts) :
    isValidDocId (generateUniqueDocId rand ts drafts) = true := by
  unfold generateUniqueDocId
  cases h : (List.range 99).find?
      (fun i => (findKey drafts (generateDocId (rand i).1 (rand i).2.1
        (rand i).2.2)).isNone) with
  | none => simp only [h]; exact generateDocId_fallback_valid _ _ _ _
  | some i => simp only [h]; exact generateDocId_valid _ _ _

/-! ## Character-safety of accepted ids -/

theorem mem_of_valid_parts (cs : List Char) :
    ∀ c ∈ cs, c ∈ cs.takeWhile isDigitCh ∨ c ∈ cs.dropWhile isDigitCh := by
  intro c hc
  rw [← List.takeWhile_append_dropWhile (p := isDigitCh) (l := cs)] at hc
  exact List.mem_append.mp hc

theorem tailDigits_chars (cs : List Char) (h : tailDigits cs = true) :
    ∀ c ∈ cs, isDigitCh c = true := by
  unfold tailDigits at h
  simp only [Bool.and_eq_true] at h
  intro c hc
  rcases mem_of_valid_parts cs c hc with hm | hm
  · exact List.mem_takeWhile_imp hm
  · rw [List.isEmpty_iff.mp h.2] at hm
    simp at hm

theorem numPart_chars (cs : List Char) (h : numPart cs = true) :
    ∀ c ∈ cs, isDigitCh c = true ∨ c = '-' := by
  unfold numPart at h
  intro c hc
  rcases mem_of_valid_parts cs c hc with hm | hm
  · exact Or.inl (List.mem_takeWhile_imp hm)
  · cases hdw : cs.dropWhile isDigitCh with
    | nil => rw [hdw] at hm; simp at hm
    | cons x rest =>
      rw [hdw] at h hm
      simp only [Bool.and_eq_true, beq_iff_eq] at h
      rcases List.mem_cons.mp hm with hm | hm
      · exact Or.inr (hm.trans h.1)
      · exact Or.inl (tailDigits_chars rest h.2.2 c hm)

theorem alphaThen_chars (next : List Char → Bool) (P : Char → Prop)
    (hnext : ∀ cs, next cs = true → ∀ c ∈ cs, P c) (cs : List Char)
    (h : alphaThen next cs = true) :
    ∀ c ∈ cs, isLowerAlpha c = true ∨ c = '-' ∨ P c := by
  unfold alphaThen at h
  intro c hc
  rw [← List.takeWhile_append_dropWhile (p := isLowerAlpha) (l := cs)] at hc
  rcases List.mem_append.mp hc with hm | hm
  · exact Or.inl (List.mem_takeWhile_imp hm)
  · cases hdw : cs.dropWhile isLowerAlpha with
    | nil => rw [hdw] at hm; simp at hm
    | cons x rest =>
      rw [hdw] at h hm
      simp only [Bool.and_eq_true, beq_iff_eq] at h
      rcases List.mem_cons.mp hm with hm | hm
      · exact Or.inr (Or.inl (hm.trans h.1))
      · exact Or.inr (Or.inr (hnext rest h.2.2 c hm))

/-- Every character of an accepted id is a lowercase letter, a digit, or
a hyphen. -/
theorem valid_docId_chars (s : String) (h : isValidDocId s = true) :
    ∀ c ∈ s.data, isLowerAlpha c = true ∨ isDigitCh c = true ∨ c = '-' := by
  unfold isValidDocId at h
  have := alphaThen_chars (alphaThen numPart)
    (fun c => isLowerAlpha c = true ∨ isDigitCh c = true ∨ c = '-')
    (fun cs hcs => by
      have := alphaThen_chars numPart
        (fun c => isDigitCh c = true ∨ c = '-')
        (fun cs2 hcs2 => numPart_chars cs2 hcs2) cs hcs
      intro c hc
      rcases this c hc with h1 | h1 | h1
      · exact Or.inl h1
      · exact Or.inr (Or.inr h1)
      · rcases h1 with h1 | h1
        · exact Or.inr (Or.inl h1)
        · exact Or.inr (Or.inr h1))
    s.data h
  intro c hc
  rcases this c hc with h1 | h1 | h1
  · exact Or.inl h1
  · exact Or.inr (Or.inr h1)
  · exact h1

/-! ## Merge lemmas for preset inheritance -/

theorem findKey_cons {α : Type} (p : String × α) (t : List (String × α))
    (k : String) :
    findKey (p :: t) k = if p.1 = k then some p.2 else findKey t k := rfl

theorem findKey_append {α : Type} (l1 l2 : List (String × α)) (k : String) :
    findKey (l1 ++ l2) k =
      match findKey l1 k with
      | some v => some v
      | none => findKey l2 k := by
  induction l1 with
  | nil => simp [findKey]
  | cons p t ih =>
    by_cases hp : p.1 = k
    · simp [findKey, hp]
    · simp [findKey, hp, ih]

theorem findKey_filter_of_child_some {α : Type}
    (parent child : List (String × α)) (k : String) (v : α)
    (h : findKey child k = some v) :
    findKey (parent.filter fun p => (findKey child p.1).isNone) k = none := by
  induction parent with
  | nil => rfl
  | cons q t ih =>
    rw [List.filter_cons]
    by_cases hq : q.1 = k
    · have hcond : (findKey child q.1).isNone = false := by rw [hq, h]; rfl
      rw [if_neg (by simp [hcond])]
      exact ih
    · cases hpred : (findKey child q.1).isNone
      · rw [if_neg (by simp)]
        exact ih
      · rw [if_pos rfl, findKey_cons, if_neg hq]
        exact ih

theorem findKey_filter_of_child_none {α : Type}
    (parent child : List (String × α)) (k : String)
    (h : findKey child k = none) :
    findKey (parent.filter fun p => (findKey child p.1).isNone) k =
      findKey parent k := by
  induction parent with
  | nil => rfl
  | cons q t ih =>
    rw [List.filter_cons]
    by_cases hq : q.1 = k
    · have hcond : (findKey child q.1).isNone = true := by rw [hq, h]; rfl
      rw [if_pos hcond, findKey_cons, if_pos hq, findKey_cons, if_pos hq]
    · cases hpred : (findKey child q.1).isNone
      · rw [if_neg (by simp), findKey_cons, if_neg hq]
        exact ih
      · rw [if_pos rfl, findKey_cons, if_neg hq, findKey_cons, if_neg hq]
        exact ih

theorem mergeMap_lookup_child {α : Type}
    (parent child : List (String × α)) (k : String) (v : α)
    (h : findKey child k = some v) :
    findKey (mergeMap parent child) k = some v := by
  unfold mergeMap
  rw [findKey_append, findKey_filter_of_child_some parent child k v h]
  simpa using h

theorem mergeMap_lookup_parent {α : Type}
    (parent child : List (String × α)) (k : String)
    (h : findKey child k = none) :
    findKey (mergeMap parent child) k = findKey parent k := by
  unfold mergeMap
  rw [findKey_append, findKey_filter_of_child_none parent child k h]
  cases hp : findKey parent k <;> simp [hp, h]

/-! ## Claim theorems -/

/-- C1: for every preset whose definition declares a parent via
`extends`, `loadPreset` locates the definition by scope precedence
(project over user over built-in), resolves the parent, and merges it
into the child: child fields take precedence, nested maps (pandoc
variables, logo sets, style flags) merge key-by-key, and the extra
arguments concatenate parent-then-child. -/
theorem claim_C1_loadPreset_inheritance
    (sc : PresetScopes) (fuel : Nat) (name : String) (cfg : PresetConfig)
    (src : PresetSource) (parentName : String) (par : PresetConfig)
    (hfound : lookupScoped sc name = some (cfg, src))
    (hparent : cfg.parent = some parentName)
    (hpar : resolvePresetCfg sc fuel parentName = .ok par) :
    resolvePresetCfg sc (fuel + 1) name = .ok (mergePresets par cfg) ∧
    (∀ k v, findKey cfg.pandocVars k = some v →
      findKey (mergePresets par cfg).pandocVars k = some v) ∧
    (∀ k, findKey cfg.pandocVars k = none →
      findKey (mergePresets par cfg).pandocVars k = findKey par.pandocVars k) ∧
    (∀ k v, findKey cfg.logos k = some v →
      findKey (mergePresets par cfg).logos k = some v) ∧
    (∀ k, findKey cfg.logos k = none →
      findKey (mergePresets par cfg).logos k = findKey par.logos k) ∧
    (∀ k v, findKey cfg.styleFlags k = some v →
      findKey (mergePresets par cfg).styleFlags k = some v) ∧
    (∀ k, findKey cfg.styleFlags k = none →
      findKey (mergePresets par cfg).styleFlags k = findKey par.styleFlags k) ∧
    (mergePresets par cfg).extra_args = par.extra_args ++ cfg.extra_args ∧
    (mergePresets par cfg).templatePath =
      (cfg.templatePath.orElse fun _ => par.templatePath) ∧
    (mergePresets par cfg).pdf_engine =
      (cfg.pdf_engine.orElse fun _ => par.pdf_engine) ∧
    (mergePresets par cfg).csl = (cfg.csl.orElse fun _ => par.csl) ∧
    (∀ n c, findKey sc.project n = some c →
      lookupScoped sc n = some (c, .project)) ∧
    (∀ n c, findKey sc.project n = none → findKey sc.user n = some c →
      lookupScoped sc n = some (c, .user)) ∧
    (∀ n c, findKey sc.project n = none → findKey sc.user n = none →
      findKey sc.builtin n = some c →
      lookupScoped sc n = some (c, .builtin)) := by
  refine ⟨?_, fun k v h => mergeMap_lookup_child _ _ k v h,
    fun k h => mergeMap_lookup_parent _ _ k h,
    fun k v h => mergeMap_lookup_child _ _ k v h,
    fun k h => mergeMap_lookup_parent _ _ k h,
    fun k v h => mergeMap_lookup_child _ _ k v h,
    fun k h => mergeMap_lookup_parent _ _ k h,
    rfl, rfl, rfl, rfl, ?_, ?_, ?_⟩
  · simp [resolvePresetCfg, hfound, hparent, hpar, Except.map]
  · intro n c h
    simp [lookupScoped, h]
  · intro n c h1 h2
    simp [lookupScoped, h1, h2]
  · intro n c h1 h2 h3
    simp [lookupScoped, h1, h2, h3]

/-- Witness for C1: a project-scope child extending a built-in parent,
resolved and merged at concrete values. -/
theorem claim_C1_witness :
    resolvePresetCfg sampleScopes 2 "child" =
      .ok (mergePresets sampleParent sampleChild) ∧
    findKey (mergePresets sampleParent sampleChild).pandocVars "margin" =
      some "3cm" ∧
    findKey (mergePresets sampleParent sampleChild).pandocVars "fontsize" =
      some "11pt" ∧
    (mergePresets sampleParent sampleChild).extra_args =
      ["--listings", "--number-sections"] := by
  have h := claim_C1_loadPreset_inheritance sampleScopes 1 "child"
    sampleChild .project "base" sampleParent rfl rfl rfl
  exact ⟨h.1, h.2.1 "margin" "3cm" rfl, h.2.2.1 "fontsize" rfl, h.2.2.2.2.2.2.2.1⟩

/-- C4: every `docs_templates_install` invocation that completes
successfully — for each of the five sources — calls
`presetManager.clearCache()` as its final step before returning its
success message. -/
theorem claim_C4_install_clears_cache (src : InstallSource)
    (env : InstallEnv) (userDir : String) (msg : String)
    (h : (docsTemplatesInstall src env userDir).1 = .ok msg) :
    (docsTemplatesInstall src env userDir).2.getLast? =
      some InstEv.cacheClear := by
  cases src <;>
    cases hdl : env.dlOk <;> cases hex : env.extractOk <;>
    cases hf : env.fetchOk <;> cases hcls : env.clsOk <;>
    simp_all [docsTemplatesInstall, List.getLast?]

/-- Witness for C4: a successful eisvogel install at a concrete
environment. -/
theorem claim_C4_witness :
    (docsTemplatesInstall .eisvogel sampleInstallEnv "/u").2.getLast? =
      some InstEv.cacheClear :=
  claim_C4_install_clears_cache .eisvogel sampleInstallEnv "/u"
    "Installed eisvogel to /u/templates/eisvogel.latex" rfl

/-- C2 counterexample: on a malformed doc id, `docs_compile` and
`docs_delete_draft` return the invalid-identifier message as an ordinary
tool result (`.ok`), not as a thrown exception (`.error`), refuting the
claim that this error is reported by throwing. -/
theorem claim_C2_counterexample :
    (docsCompile "../../etc/passwd" "2024-01-01" sampleCompileEnv).1 =
      .ok "Invalid document ID format: ../../etc/passwd" ∧
    (docsDeleteDraft "../../etc/passwd" .absent).1 =
      .ok "Invalid document ID format: ../../etc/passwd" := by
  constructor <;> rfl

/-- C2 amended: for every `docs_compile` or `docs_delete_draft`
invocation whose `doc_id` does not match the identifier format, the
invalid-identifier-format error is reported as a returned human-readable
message (not a thrown exception), and nothing else happens. -/
theorem claim_C2_invalid_id_returned (docId now : String)
    (env : CompileEnv) (regFile : RegistryFile)
    (h : isValidDocId docId = false) :
    (docsCompile docId now env).1 =
      .ok ("Invalid document ID format: " ++ docId) ∧
    (docsCompile docId now env).2.2 = [] ∧
    (docsDeleteDraft docId regFile).1 =
      .ok ("Invalid document ID format: " ++ docId) ∧
    (docsDeleteDraft docId regFile).2.1 = none := by
  unfold docsCompile docsDeleteDraft
  rw [h]
  simp

/-- Witness for the amended C2 at a concrete malformed id. -/
theorem claim_C2_witness :
    isValidDocId "once/upon-a-time" = false ∧
    (docsCompile "once/upon-a-time" "t" sampleCompileEnv).1 =
      .ok ("Invalid document ID format: " ++ "once/upon-a-time") :=
  ⟨by decide, (claim_C2_invalid_id_returned "once/upon-a-time" "t"
    sampleCompileEnv .absent (by decide)).1⟩

/-- C3: an absent or malformed registry file is read as the empty
registry, and the four draft tools proceed as if no drafts existed
instead of failing. -/
theorem claim_C3_registry_tolerance (regFile : RegistryFile)
    (h : regFile = .absent ∨ regFile = .malformed) :
    readRegistry regFile = emptyRegistry ∧
    (∀ basePath fs, docsListDrafts regFile basePath fs =
      "No active drafts. Create one with docs_draft.") ∧
    (∀ docId now env, env.regFile = regFile → isValidDocId docId = true →
      (docsCompile docId now env).1 = .ok ("Draft not found: " ++ docId ++
        ". Use docs_list_drafts to see available drafts.")) ∧
    (∀ docId, isValidDocId docId = true →
      (docsDeleteDraft docId regFile).1 =
        .ok ("Draft not found: " ++ docId)) ∧
    (∀ args fs rand ts nowIso today,
      (docsDraft args fs rand ts nowIso today regFile).2.1.drafts =
        [(generateUniqueDocId rand ts [],
          ⟨args.title, args.preset, nowIso, nowIso, args.source_markdown,
            "draft"⟩)]) := by
  have hreg : readRegistry regFile = emptyRegistry := by
    rcases h with h | h <;> simp [h, readRegistry]
  refine ⟨hreg, ?_, ?_, ?_, ?_⟩
  · intro basePath fs
    simp [docsListDrafts, hreg, emptyRegistry]
  · intro docId now env he hv
    unfold docsCompile
    rw [hv, he, hreg]
    simp [emptyRegistry, findKey]
  · intro docId hv
    unfold docsDeleteDraft
    rw [hv, hreg]
    simp [emptyRegistry, findKey]
  · intro args fs rand ts nowIso today
    simp [docsDraft, hreg, emptyRegistry, setKey]

/-- Witness for C3 at the concrete malformed registry file. -/
theorem claim_C3_witness :
    readRegistry .malformed = emptyRegistry ∧
    docsListDrafts .malformed "/w" (fun _ => true) =
      "No active drafts. Create one with docs_draft." :=
  ⟨(claim_C3_registry_tolerance .malformed (Or.inr rfl)).1,
    (claim_C3_registry_tolerance .malformed (Or.inr rfl)).2.1 "/w" _⟩

/-- The shape of every `docs_compile` run that passes the three guards:
the mutated registry is written, and the trace is
read / write / preset-load followed by at most one execution event. -/
theorem docsCompile_after_guards (docId now : String) (env : CompileEnv)
    (info : DraftInfo)
    (hv : isValidDocId docId = true)
    (hfind : findKey (readRegistry env.regFile).drafts docId = some info)
    (hex : env.draftFileExists = true) :
    (docsCompile docId now env).2.1 =
      some (compiledRegistry env docId now info) ∧
    ∃ rest, (docsCompile docId now env).2.2 =
      Ev.readReg :: Ev.writeReg (compiledRegistry env docId now info) ::
        Ev.loadPresetEv :: rest := by
  unfold docsCompile compiledRegistry
  rw [hv]
  simp only [Bool.not_true, Bool.false_eq_true, if_false]
  rw [hfind]
  simp only []
  rw [hex]
  simp only [Bool.not_true, Bool.false_eq_true, if_false]
  cases hlp : env.loadPreset info.preset with
  | error e => simp
  | ok preset =>
    by_cases htp : (jsTruthyS preset.templatePath &&
        !jsTruthyS preset.resolved_template_path) = true
    · simp [htp]
    · rw [Bool.not_eq_true] at htp
      cases ha : env.authorsArg with
      | none =>
        simp only [htp, Bool.false_eq_true, if_false]
        cases hs : env.execResult.success <;> simp
      | some r =>
        cases r with
        | error e => simp [htp]
        | ok u =>
          simp only [htp, Bool.false_eq_true, if_false]
          cases hs : env.execResult.success <;> simp

/-- C8: `docs_compile` sets the named entry's `status` to `"compiled"`
and `last_modified` to the current time and writes the registry to disk
before loading the preset and executing the conversion; when a later
step throws, the already-written mutation stays in place — the
operation is not atomic on error. -/
theorem claim_C8_registry_write_not_atomic
    (docId now : String) (env : CompileEnv) (info : DraftInfo)
    (hv : isValidDocId docId = true)
    (hfind : findKey (readRegistry env.regFile).drafts docId = some info)
    (hex : env.draftFileExists = true) :
    (∃ rest, (docsCompile docId now env).2.2 =
      Ev.readReg :: Ev.writeReg (compiledRegistry env docId now info) ::
        Ev.loadPresetEv :: rest) ∧
    (docsCompile docId now env).2.1 =
      some (compiledRegistry env docId now info) ∧
    findKey (compiledRegistry env docId now info).drafts docId =
      some { info with last_modified := now, status := "compiled" } ∧
    (∀ e, (docsCompile docId now env).1 = Except.error e →
      (docsCompile docId now env).2.1 =
        some (compiledRegistry env docId now info)) := by
  obtain ⟨hw, hrest⟩ := docsCompile_after_guards docId now env info hv hfind hex
  exact ⟨hrest, hw, findKey_setKey_self _ _ _, fun e _ => hw⟩

/-- Witness for C8: a concrete compile whose conversion succeeds still
has the mutation written; the hypotheses are discharged at concrete
values. -/
theorem claim_C8_witness :
    (docsCompile "amber-apple-100" "2024-02-02T00:00:00Z"
      sampleCompileEnv).2.1 = some (compiledRegistry sampleCompileEnv
        "amber-apple-100" "2024-02-02T00:00:00Z"
        ⟨"T", "school-report", "c", "m", none, "draft"⟩) :=
  (claim_C8_registry_write_not_atomic "amber-apple-100"
    "2024-02-02T00:00:00Z" sampleCompileEnv
    ⟨"T", "school-report", "c", "m", none, "draft"⟩
    (by decide) rfl rfl).2.1

/-- C7: when the loaded preset declares a template path but no
installed template was resolved, `docs_compile` and `docs_create` throw
an exception naming the missing template, and no conversion process is
executed. -/
theorem claim_C7_missing_template_throws :
    (∀ docId now env info preset path,
      isValidDocId docId = true →
      findKey (readRegistry env.regFile).drafts docId = some info →
      env.draftFileExists = true →
      env.loadPreset info.preset = .ok preset →
      preset.templatePath = some path → path ≠ "" →
      preset.resolved_template_path = none →
      (docsCompile docId now env).1 = .error ("Template '" ++ path ++
        "' not found. Use docs_templates_install.") ∧
      Ev.execEv ∉ (docsCompile docId now env).2.2) ∧
    (∀ presetName env outputPath preset path,
      env.loadPreset presetName = .ok preset →
      preset.templatePath = some path → path ≠ "" →
      preset.resolved_template_path = none →
      (docsCreate presetName env outputPath).1 = .error ("Template '" ++
        path ++ "' not found. Use docs_templates_install.") ∧
      Ev.execEv ∉ (docsCreate presetName env outputPath).2) := by
  have hbool : ∀ path : String, path ≠ "" → path.isEmpty = false := by
    intro path hne
    cases hp : path.isEmpty
    · rfl
    · exact absurd ((String.isEmpty_iff path).mp hp) hne
  constructor
  · intro docId now env info preset path hv hfind hex hload hpath hne hnores
    unfold docsCompile
    rw [hv]
    simp only [Bool.not_true, Bool.false_eq_true, if_false]
    rw [hfind]
    simp only []
    rw [hex]
    simp only [Bool.not_true, Bool.false_eq_true, if_false]
    rw [hload]
    have hcond : (jsTruthyS preset.templatePath &&
        !jsTruthyS preset.resolved_template_path) = true := by
      rw [hpath, hnores]
      simp [jsTruthyS, hbool path hne]
    simp only []
    rw [if_pos hcond, hpath]
    exact ⟨rfl, by simp⟩
  · intro presetName env outputPath preset path hload hpath hne hnores
    unfold docsCreate
    rw [hload]
    have hcond : (jsTruthyS preset.templatePath &&
        !jsTruthyS preset.resolved_template_path) = true := by
      rw [hpath, hnores]
      simp [jsTruthyS, hbool path hne]
    simp only []
    rw [if_pos hcond, hpath]
    exact ⟨rfl, by simp⟩

/-- Witness for C7 at a concrete environment whose preset names an
uninstalled template. -/
theorem claim_C7_witness :
    (docsCompile "amber-apple-100" "t" sampleCompileEnvMissingTpl).1 =
      .error ("Template '" ++ "ieee/template.latex" ++
        "' not found. Use docs_templates_install.") ∧
    (docsCreate "ieee-conference" sampleCreateEnvMissingTpl "/o.pdf").1 =
      .error ("Template '" ++ "ieee/template.latex" ++
        "' not found. Use docs_templates_install.") :=
  ⟨(claim_C7_missing_template_throws.1 "amber-apple-100" "t"
      sampleCompileEnvMissingTpl ⟨"T", "school-report", "c", "m", none, "draft"⟩
      missingTplPreset "ieee/template.latex" (by decide) rfl rfl rfl rfl
      (by decide) rfl).1,
    (claim_C7_missing_template_throws.2 "ieee-conference"
      sampleCreateEnvMissingTpl "/o.pdf" missingTplPreset
      "ieee/template.latex" rfl rfl (by decide) rfl).1⟩

/-- C5 counterexample: when all 99 random draws collide and the
timestamp fallback id also already exists in the registry (the fallback
is never re-checked), `docs_draft` overwrites the existing
`amber-apple-100-5` entry instead of adding a new one: the registry
still has 2 entries and the pre-existing entry's fields changed. -/
theorem claim_C5_counterexample :
    generateUniqueDocId (fun _ => (0, 0, 0)) 5 collidingRegistry =
      "amber-apple-100-5" ∧
    findKey collidingRegistry "amber-apple-100-5" =
      some ⟨"B", "p", "c2", "m2", none, "compiled"⟩ ∧
    (docsDraft ⟨"New", "p2", none, none⟩ (fun _ => none) (fun _ => (0, 0, 0))
        5 "n" "d" (.wellFormed ⟨collidingRegistry⟩)).2.1.drafts.length = 2 ∧
    findKey (docsDraft ⟨"New", "p2", none, none⟩ (fun _ => none)
        (fun _ => (0, 0, 0)) 5 "n" "d"
        (.wellFormed ⟨collidingRegistry⟩)).2.1.drafts "amber-apple-100-5" =
      some ⟨"New", "p2", "n", "n", none, "draft"⟩ := by
  refine ⟨by decide, by decide, by decide, by decide⟩

/-- Past the guards, the compile trace is exactly read / write /
preset-load, optionally followed by the execution event. -/
theorem docsCompile_trace_cases (docId now : String) (env : CompileEnv)
    (info : DraftInfo)
    (hv : isValidDocId docId = true)
    (hfind : findKey (readRegistry env.regFile).drafts docId = some info)
    (hex : env.draftFileExists = true) :
    (docsCompile docId now env).2.2 =
      [Ev.readReg, Ev.writeReg (compiledRegistry env docId now info),
        Ev.loadPresetEv] ∨
    (docsCompile docId now env).2.2 =
      [Ev.readReg, Ev.writeReg (compiledRegistry env docId now info),
        Ev.loadPresetEv, Ev.execEv] := by
  unfold docsCompile compiledRegistry
  rw [hv]
  simp only [Bool.not_true, Bool.false_eq_true, if_false]
  rw [hfind]
  simp only []
  rw [hex]
  simp only [Bool.not_true, Bool.false_eq_true, if_false]
  cases hlp : env.loadPreset info.preset with
  | error e => simp
  | ok preset =>
    by_cases htp : (jsTruthyS preset.templatePath &&
        !jsTruthyS preset.resolved_template_path) = true
    · simp [htp]
    · rw [Bool.not_eq_true] at htp
      cases ha : env.authorsArg with
      | none =>
        simp only [htp, Bool.false_eq_true, if_false]
        cases hs : env.execResult.success <;> simp
      | some r =>
        cases r with
        | error e => simp [htp]
        | ok u =>
          simp only [htp, Bool.false_eq_true, if_false]
          cases hs : env.execResult.success <;> simp

/-- The trace of a compile run that fails a guard contains no registry
write. -/
theorem docsCompile_guard_fail_no_write (docId now : String)
    (env : CompileEnv) (r : DocRegistry) :
    (isValidDocId docId = false ∨
      findKey (readRegistry env.regFile).drafts docId = none ∨
      env.draftFileExists = false) →
    Ev.writeReg r ∉ (docsCompile docId now env).2.2 := by
  intro h hmem
  unfold docsCompile at hmem
  by_cases hv : isValidDocId docId = true
  · rw [hv] at hmem
    simp only [Bool.not_true, Bool.false_eq_true, if_false] at hmem
    cases hfind : findKey (readRegistry env.regFile).drafts docId with
    | none =>
      rw [hfind] at hmem
      simp at hmem
    | some info =>
      rw [hfind] at hmem
      simp only [] at hmem
      cases hex : env.draftFileExists with
      | false =>
        rw [hex] at hmem
        simp at hmem
      | true =>
        rcases h with h | h | h
        · rw [hv] at h; exact absurd h (by simp)
        · rw [hfind] at h; exact Option.noConfusion h
        · rw [hex] at h; exact absurd h (by simp)
  · rw [Bool.not_eq_true] at hv
    rw [hv] at hmem
    simp at hmem

/-- Every registry write `docs_compile` performs carries the registry
that ends up on disk: there is at most the single characterized write. -/
theorem docsCompile_write_unique (docId now : String) (env : CompileEnv)
    (r : DocRegistry)
    (hmem : Ev.writeReg r ∈ (docsCompile docId now env).2.2) :
    (docsCompile docId now env).2.1 = some r := by
  by_cases hv : isValidDocId docId = true
  · cases hfind : findKey (readRegistry env.regFile).drafts docId with
    | none =>
      exact absurd hmem
        (docsCompile_guard_fail_no_write docId now env r (Or.inr (Or.inl hfind)))
    | some info =>
      cases hex : env.draftFileExists with
      | false =>
        exact absurd hmem
          (docsCompile_guard_fail_no_write docId now env r
            (Or.inr (Or.inr hex)))
      | true =>
        have hw := (docsCompile_after_guards docId now env info hv hfind hex).1
        rcases docsCompile_trace_cases docId now env info hv hfind hex with
          htr | htr
        · rw [htr] at hmem
          simp only [List.mem_cons, List.not_mem_nil, or_false] at hmem
          rcases hmem with h | h | h
          · exact absurd h (by simp)
          · rw [hw]; injection h with h2; rw [h2]
          · exact absurd h (by simp)
        · rw [htr] at hmem
          simp only [List.mem_cons, List.not_mem_nil, or_false] at hmem
          rcases hmem with h | h | h | h
          · exact absurd h (by simp)
          · rw [hw]; injection h with h2; rw [h2]
          · exact absurd h (by simp)
          · exact absurd h (by simp)
  · rw [Bool.not_eq_true] at hv
    exact absurd hmem
      (docsCompile_guard_fail_no_write docId now env r (Or.inl hv))

/-- Likewise for `docs_delete_draft`. -/
theorem docsDeleteDraft_write_unique (docId : String)
    (regFile : RegistryFile) (r : DocRegistry)
    (hmem : Ev.writeReg r ∈ (docsDeleteDraft docId regFile).2.2) :
    (docsDeleteDraft docId regFile).2.1 = some r := by
  unfold docsDeleteDraft at hmem ⊢
  by_cases hv : isValidDocId docId = true
  · rw [hv] at hmem ⊢
    simp only [Bool.not_true, Bool.false_eq_true, if_false] at hmem ⊢
    cases hfind : findKey (readRegistry regFile).drafts docId with
    | none =>
      rw [hfind] at hmem
      simp at hmem
    | some info =>
      rw [hfind] at hmem
      simp only [List.mem_cons, List.not_mem_nil, or_false] at hmem
      rcases hmem with h | h
      · exact absurd h (by simp)
      · injection h with h2
        rw [h2]
  · rw [Bool.not_eq_true] at hv
    rw [hv] at hmem
    simp at hmem

/-- `docs_create` — the only non-lifecycle tool whose run is modelled
with registry events — never writes the registry. -/
theorem docsCreate_no_registry_write (presetName : String)
    (env : CreateEnv) (outputPath : String) (r : DocRegistry) :
    Ev.writeReg r ∉ (docsCreate presetName env outputPath).2 := by
  unfold docsCreate
  repeat' split
  all_goals simp

/-- C5 amended: the draft registry is modified only by the three
lifecycle operations — `docs_create`, the only other tool modelled with
registry events, never writes it, and each lifecycle operation performs
at most one registry write, the characterized one — and each touches
only the named entry: `docs_draft` adds exactly one new entry with
status `"draft"` provided the generated id is fresh (the timestamp
fallback is not re-checked against the registry), `docs_compile`
rewrites only the named entry's `last_modified` and `status`, and
`docs_delete_draft` removes exactly the named entry; in each case all
other entries are unchanged. -/
theorem claim_C5_lifecycle_frame :
    (∀ args fs rand ts nowIso today regFile,
      findKey (readRegistry regFile).drafts
          (generateUniqueDocId rand ts (readRegistry regFile).drafts) =
        none →
      findKey (docsDraft args fs rand ts nowIso today regFile).2.1.drafts
          (generateUniqueDocId rand ts (readRegistry regFile).drafts) =
        some ⟨args.title, args.preset, nowIso, nowIso,
          args.source_markdown, "draft"⟩ ∧
      ∀ k, k ≠ generateUniqueDocId rand ts (readRegistry regFile).drafts →
        findKey (docsDraft args fs rand ts nowIso today regFile).2.1.drafts
            k = findKey (readRegistry regFile).drafts k) ∧
    (∀ docId now env info,
      isValidDocId docId = true →
      findKey (readRegistry env.regFile).drafts docId = some info →
      env.draftFileExists = true →
      (docsCompile docId now env).2.1 =
        some (compiledRegistry env docId now info) ∧
      findKey (compiledRegistry env docId now info).drafts docId =
        some { info with last_modified := now, status := "compiled" } ∧
      ∀ k, k ≠ docId →
        findKey (compiledRegistry env docId now info).drafts k =
          findKey (readRegistry env.regFile).drafts k) ∧
    (∀ docId regFile info,
      isValidDocId docId = true →
      findKey (readRegistry regFile).drafts docId = some info →
      ∃ reg', (docsDeleteDraft docId regFile).2.1 = some reg' ∧
        findKey reg'.drafts docId = none ∧
        ∀ k, k ≠ docId →
          findKey reg'.drafts k = findKey (readRegistry regFile).drafts k) ∧
    (∀ args fs rand ts nowIso today regFile,
      (docsDraft args fs rand ts nowIso today regFile).2.1 =
        ⟨setKey (readRegistry regFile).drafts
          (generateUniqueDocId rand ts (readRegistry regFile).drafts)
          ⟨args.title, args.preset, nowIso, nowIso,
            args.source_markdown, "draft"⟩⟩) ∧
    (∀ docId now env r,
      Ev.writeReg r ∈ (docsCompile docId now env).2.2 →
      (docsCompile docId now env).2.1 = some r) ∧
    (∀ docId regFile r,
      Ev.writeReg r ∈ (docsDeleteDraft docId regFile).2.2 →
      (docsDeleteDraft docId regFile).2.1 = some r) ∧
    (∀ presetName env outputPath r,
      Ev.writeReg r ∉ (docsCreate presetName env outputPath).2) := by
  refine ⟨?_, ?_, ?_,
    fun args fs rand ts nowIso today regFile => rfl,
    fun docId now env r hmem => docsCompile_write_unique docId now env r hmem,
    fun docId regFile r hmem =>
      docsDeleteDraft_write_unique docId regFile r hmem,
    fun presetName env outputPath r =>
      docsCreate_no_registry_write presetName env outputPath r⟩
  · intro args fs rand ts nowIso today regFile _
    constructor
    · exact findKey_setKey_self _ _ _
    · intro k hk
      exact findKey_setKey_ne _ _ _ _ hk
  · intro docId now env info hv hfind hex
    refine ⟨(docsCompile_after_guards docId now env info hv hfind hex).1,
      findKey_setKey_self _ _ _, fun k hk => findKey_setKey_ne _ _ _ _ hk⟩
  · intro docId regFile info hv hfind
    refine ⟨⟨delKey (readRegistry regFile).drafts docId⟩, ?_,
      findKey_delKey_self _ _, fun k hk => findKey_delKey_ne _ _ _ hk⟩
    unfold docsDeleteDraft
    rw [hv]
    simp only [Bool.not_true, Bool.false_eq_true, if_false]
    rw [hfind]

/-- Witness for the amended C5: draft into an empty registry, compile
and delete at concrete values, and the single compile write's payload
is the final on-disk registry. -/
theorem claim_C5_witness :
    findKey (docsDraft ⟨"T", "p", none, none⟩ (fun _ => none)
        (fun _ => (0, 0, 0)) 7 "n" "d" .absent).2.1.drafts
      (generateUniqueDocId (fun _ => (0, 0, 0)) 7
        (readRegistry .absent).drafts) =
      some ⟨"T", "p", "n", "n", none, "draft"⟩ ∧
    (∃ reg', (docsDeleteDraft "amber-apple-100"
        (.wellFormed ⟨collidingRegistry⟩)).2.1 = some reg' ∧
      findKey reg'.drafts "amber-apple-100" = none ∧
      ∀ k, k ≠ "amber-apple-100" →
        findKey reg'.drafts k =
          findKey (readRegistry (.wellFormed ⟨collidingRegistry⟩)).drafts k) ∧
    (docsCompile "amber-apple-100" "t" sampleCompileEnv).2.1 =
      some ⟨[("amber-apple-100",
        ⟨"T", "school-report", "c", "t", none, "compiled"⟩)]⟩ :=
  ⟨(claim_C5_lifecycle_frame.1 ⟨"T", "p", none, none⟩ (fun _ => none)
      (fun _ => (0, 0, 0)) 7 "n" "d" .absent rfl).1,
    claim_C5_lifecycle_frame.2.2.1 "amber-apple-100"
      (.wellFormed ⟨collidingRegistry⟩)
      ⟨"A", "p", "c1", "m1", none, "draft"⟩ (by decide) rfl,
    claim_C5_lifecycle_frame.2.2.2.2.1 "amber-apple-100" "t"
      sampleCompileEnv ⟨[("amber-apple-100",
        ⟨"T", "school-report", "c", "t", none, "compiled"⟩)]⟩ (by decide)⟩

/-- C6 counterexample: `docs_compile_latex` at non-zero exit with empty
captured standard-error and non-empty standard-out throws
`Compilation failed:` with an empty reason — the last-lines-of-stdout
fallback the claim describes does not happen there. -/
theorem claim_C6_counterexample :
    docsCompileLatex "/tmp/a.tex" 1 "detailed pdflatex log output" "" =
      .error ("Compilation failed:\n" ++ "") ∧
    lastLines 20 "detailed pdflatex log output" =
      "detailed pdflatex log output" ∧
    ("Compilation failed:\n" ++ "" : String) ≠
      "Compilation failed:\n" ++ lastLines 20 "detailed pdflatex log output" :=
  ⟨rfl, rfl, by decide⟩

/-- C6 amended: the pandoc builder's `execute` reports non-zero exit as
failure with captured standard-error (or the last `n` lines of
standard-out when standard-error is empty) and zero exit as success with
captured standard-output, and `docs_compile` surfaces the failure reason
in a thrown exception; `docs_compile_latex`, by contrast, surfaces only
the captured standard-error, with no standard-out fallback. -/
theorem claim_C6_exec_failure_surfaced :
    (∀ exitCode stdout stderr n, exitCode ≠ 0 →
      (builderExecute exitCode stdout stderr n).success = false ∧
      (builderExecute exitCode stdout stderr n).error =
        (if stderr.isEmpty then lastLines n stdout else stderr)) ∧
    (∀ stdout stderr n,
      builderExecute 0 stdout stderr n = ⟨true, stdout, ""⟩) ∧
    (∀ docId now env info preset,
      isValidDocId docId = true →
      findKey (readRegistry env.regFile).drafts docId = some info →
      env.draftFileExists = true →
      env.loadPreset info.preset = .ok preset →
      (jsTruthyS preset.templatePath &&
        !jsTruthyS preset.resolved_template_path) = false →
      env.authorsArg = none →
      env.execResult.success = false →
      (docsCompile docId now env).1 =
        .error ("Compilation failed:\n" ++ env.execResult.error)) ∧
    (∀ filePath exitCode out err,
      jsEndsWith filePath ".tex" = true → exitCode ≠ 0 →
      docsCompileLatex filePath exitCode out err =
        .error ("Compilation failed:\n" ++ err)) := by
  refine ⟨?_, ?_, ?_, ?_⟩
  · intro exitCode stdout stderr n h
    unfold builderExecute
    rw [if_pos h]
    exact ⟨rfl, rfl⟩
  · intro stdout stderr n
    unfold builderExecute
    rw [if_neg (by omega)]
  · intro docId now env info preset hv hfind hex hload htp ha hs
    unfold docsCompile
    rw [hv]
    simp only [Bool.not_true, Bool.false_eq_true, if_false]
    rw [hfind]
    simp only []
    rw [hex]
    simp only [Bool.not_true, Bool.false_eq_true, if_false]
    rw [hload]
    simp only []
    rw [if_neg (by rw [htp]; exact Bool.false_ne_true), ha]
    simp only []
    rw [if_neg (by rw [hs]; exact Bool.false_ne_true)]
  · intro filePath exitCode out err hend hexit
    unfold docsCompileLatex
    rw [hend]
    simp only [Bool.not_true, Bool.false_eq_true, if_false]
    rw [if_pos hexit]

/-- Witness for the amended C6 at concrete values. -/
theorem claim_C6_witness :
    (builderExecute 1 "line1\nline2" "" 1).error = lastLines 1 "line1\nline2" ∧
    builderExecute 0 "ok-output" "x" 3 = ⟨true, "ok-output", ""⟩ ∧
    (docsCompile "amber-apple-100" "t" sampleCompileEnvFail).1 =
      .error ("Compilation failed:\n" ++ "err") ∧
    docsCompileLatex "/b.tex" 2 "ignored" "the error" =
      .error ("Compilation failed:\n" ++ "the error") := by
  refine ⟨?_, claim_C6_exec_failure_surfaced.2.1 "ok-output" "x" 3, ?_, ?_⟩
  · have h := (claim_C6_exec_failure_surfaced.1 1 "line1\nline2" "" 1
      (by omega)).2
    rw [h]
    rfl
  · exact claim_C6_exec_failure_surfaced.2.2.1 "amber-apple-100" "t"
      sampleCompileEnvFail ⟨"T", "school-report", "c", "m", none, "draft"⟩
      samplePreset (by decide) rfl rfl rfl (by decide) rfl rfl
  · exact claim_C6_exec_failure_surfaced.2.2.2 "/b.tex" 2 "ignored"
      "the error" (by decide) (by omega)

/-- A valid doc id never takes the invalid-format branch of
`docs_compile`: the trace always opens with the registry read. -/
theorem docsCompile_valid_trace_head (docId now : String)
    (env : CompileEnv) (h : isValidDocId docId = true) :
    ((docsCompile docId now env).2.2).head? = some Ev.readReg := by
  unfold docsCompile
  rw [h]
  simp only [Bool.not_true, Bool.false_eq_true, if_false]
  repeat' split
  all_goals rfl

/-- Likewise for `docs_delete_draft`. -/
theorem docsDeleteDraft_valid_trace_head (docId : String)
    (regFile : RegistryFile) (h : isValidDocId docId = true) :
    ((docsDeleteDraft docId regFile).2.2).head? = some Ev.readReg := by
  unfold docsDeleteDraft
  rw [h]
  simp only [Bool.not_true, Bool.false_eq_true, if_false]
  repeat' split
  all_goals rfl

/-- C9: every identifier `generateUniqueDocId` returns — the normal
adjective-noun-number form and the timestamp-suffixed fallback —
matches the pattern accepted by `isValidDocId`; consequently a freshly
generated doc id never takes the invalid-format branch of
`docs_compile` or `docs_delete_draft`, and any accepted identifier
contains no path separator and no `..` segment. -/
theorem claim_C9_generated_ids_safe :
    (∀ rand ts drafts,
      isValidDocId (generateUniqueDocId rand ts drafts) = true) ∧
    (∀ rand ts drafts now env,
      ((docsCompile (generateUniqueDocId rand ts drafts) now
        env).2.2).head? = some Ev.readReg) ∧
    (∀ rand ts drafts regFile,
      ((docsDeleteDraft (generateUniqueDocId rand ts drafts)
        regFile).2.2).head? = some Ev.readReg) ∧
    (∀ s : String, isValidDocId s = true →
      '/' ∉ s.data ∧ ¬ List.IsInfix ['.', '.'] s.data) := by
  refine ⟨generateUniqueDocId_valid, ?_, ?_, ?_⟩
  · intro rand ts drafts now env
    exact docsCompile_valid_trace_head _ now env
      (generateUniqueDocId_valid rand ts drafts)
  · intro rand ts drafts regFile
    exact docsDeleteDraft_valid_trace_head _ regFile
      (generateUniqueDocId_valid rand ts drafts)
  · intro s h
    constructor
    · intro hmem
      rcases valid_docId_chars s h '/' hmem with h1 | h1 | h1
      · exact absurd h1 (by decide)
      · exact absurd h1 (by decide)
      · exact absurd h1 (by decide)
    · intro hinf
      have hmem : '.' ∈ s.data := hinf.subset (by decide)
      rcases valid_docId_chars s h '.' hmem with h1 | h1 | h1
      · exact absurd h1 (by decide)
      · exact absurd h1 (by decide)
      · exact absurd h1 (by decide)

/-- Witness for C9: a concretely generated id is accepted, its compile
trace opens with the registry read, and a concrete accepted id is free
of path separators. -/
theorem claim_C9_witness :
    isValidDocId (generateUniqueDocId (fun _ => (32, 1, 382)) 0 []) = true ∧
    '/' ∉ ("purple-arrow-482" : String).data ∧
    ¬ List.IsInfix ['.', '.'] ("purple-arrow-482" : String).data :=
  ⟨claim_C9_generated_ids_safe.1 (fun _ => (32, 1, 382)) 0 [],
    (claim_C9_generated_ids_safe.2.2.2 "purple-arrow-482" (by decide)).1,
    (claim_C9_generated_ids_safe.2.2.2 "purple-arrow-482" (by decide)).2⟩

/-- The frontmatter block always makes the stored draft start with
`---`. -/
theorem jsStartsWith_frontmatter (t d c : String) :
    jsStartsWith (frontmatter t d ++ c) "---" = true := by
  unfold jsStartsWith frontmatter
  simp only [String.data_append]
  show List.isPrefixOf ['-', '-', '-'] _ = true
  simp [List.isPrefixOf]

/-- `escapeYaml` leaves no newline in its output. -/
theorem escapeYaml_no_newline (s : String) :
    ∀ c ∈ (escapeYaml s).data, c ≠ '\n' := by
  intro c hc
  have hc' : c ∈ (s.data.map fun x =>
      if x = '"' then ['\\', '"'] else
      if x = '\n' then [' '] else [x]).flatten := hc
  rw [List.mem_flatten] at hc'
  obtain ⟨chunk, hchunk, hcm⟩ := hc'
  rw [List.mem_map] at hchunk
  obtain ⟨x, hx, rfl⟩ := hchunk
  by_cases h1 : x = '"'
  · rw [if_pos h1] at hcm
    simp only [List.mem_cons, List.mem_singleton] at hcm
    rcases hcm with h | h | h
    · subst h; decide
    · subst h; decide
    · simp at h
  · rw [if_neg h1] at hcm
    by_cases h2 : x = '\n'
    · rw [if_pos h2] at hcm
      simp only [List.mem_singleton] at hcm
      subst hcm; decide
    · rw [if_neg h2] at hcm
      simp only [List.mem_singleton] at hcm
      subst hcm; exact h2

/-- C10: the stored `draft.md` always begins with `---`: when the
initial content does not start with `---`, the YAML frontmatter block —
title with double quotes escaped and newlines replaced by spaces, and
the current date — is prepended; otherwise the content is stored
unchanged. -/
theorem claim_C10_draft_frontmatter (args : DraftArgs)
    (fs : String → Option String) (today : String) :
    jsStartsWith (draftStored args fs today) "---" = true ∧
    (jsStartsWith (draftInitialContent args fs) "---" = false →
      draftStored args fs today =
        frontmatter args.title today ++ draftInitialContent args fs) ∧
    (jsStartsWith (draftInitialContent args fs) "---" = true →
      draftStored args fs today = draftInitialContent args fs) ∧
    (∀ c ∈ (escapeYaml args.title).data, c ≠ '\n') ∧
    (∀ rand ts nowIso regFile,
      (docsDraft args fs rand ts nowIso today regFile).2.2 =
        draftStored args fs today) := by
  refine ⟨?_, ?_, ?_, escapeYaml_no_newline args.title,
    fun rand ts nowIso regFile => rfl⟩
  · unfold draftStored
    simp only []
    cases h : jsStartsWith (draftInitialContent args fs) "---"
    · rw [if_neg (by simp)]
      exact jsStartsWith_frontmatter _ _ _
    · rw [if_pos rfl]
      exact h
  · intro h
    unfold draftStored
    simp only []
    rw [if_neg (by simp [h])]
  · intro h
    unfold draftStored
    simp only []
    rw [if_pos h]

/-- Witness for C10 at concrete contents: a title with quotes and a
newline gets a frontmatter-prefixed draft; content already starting
with `---` is stored unchanged. -/
theorem claim_C10_witness :
    jsStartsWith (draftStored ⟨"My \"Doc\"\nTitle", "p", some "hello", none⟩
      (fun _ => none) "2024-01-01") "---" = true ∧
    draftStored ⟨"T", "p", some "---\nalready", none⟩ (fun _ => none) "d" =
      "---\nalready" :=
  ⟨(claim_C10_draft_frontmatter ⟨"My \"Doc\"\nTitle", "p", some "hello",
      none⟩ (fun _ => none) "2024-01-01").1,
    by
      have h := (claim_C10_draft_frontmatter
        ⟨"T", "p", some "---\nalready", none⟩ (fun _ => none) "d").2.2.1
        (by decide)
      rw [h]
      rfl⟩

end RiceDocs
